import Mathlib

/-!
Shallow embedding of the tag-settings engine of the AIOverhaul plugin catalog
(`skier_aitagging/service.py`).  Python strings are Lean `String`s; Python
`str.strip` / `str.lower` / `str.upper` are modelled as explicit list-of-char
operations (`pyStrip`, `pyLower`, `pyUpper`); Python dicts whose iteration
order matters are modelled as association lists with first-occurrence update;
CSV `DictReader` rows are modelled as association lists from column name to
cell text; fallible paths return explicitly tagged results.
-/

/-- Whitespace test used by the model of Python `str.strip`. -/
def isWS (c : Char) : Bool := c.isWhitespace

/-- Strip leading and trailing whitespace from a list of characters. -/
def stripList (l : List Char) : List Char :=
  ((l.dropWhile isWS).reverse.dropWhile isWS).reverse

/-- Model of Python `str.strip()`. -/
def pyStrip (s : String) : String := String.mk (stripList s.toList)

/-- Model of Python `str.lower()` (ASCII case folding). -/
def pyLower (s : String) : String := String.mk (s.toList.map Char.toLower)

/-- Model of Python `str.upper()` (ASCII case folding). -/
def pyUpper (s : String) : String := String.mk (s.toList.map Char.toUpper)

theorem dropWhile_dropWhile (p : Char → Bool) (l : List Char) :
    (l.dropWhile p).dropWhile p = l.dropWhile p := by
  induction l with
  | nil => rfl
  | cons a t ih =>
    by_cases h : p a
    · simp [List.dropWhile_cons, h, ih]
    · simp [List.dropWhile_cons, h]

theorem dropWhile_eq_self_append (p : Char → Bool) (x y : List Char)
    (h : (x ++ y).dropWhile p = x ++ y) : x.dropWhile p = x := by
  cases x with
  | nil => rfl
  | cons a t =>
    by_cases ha : p a
    · exfalso
      have hd : (t ++ y).dropWhile p = a :: (t ++ y) := by
        simpa [List.dropWhile_cons, ha] using h
      have hlen : ((t ++ y).dropWhile p).length ≤ (t ++ y).length :=
        (List.dropWhile_sublist p).length_le
      rw [hd] at hlen
      simp at hlen
    · simp [List.dropWhile_cons, ha]

theorem stripList_decomp (l : List Char) :
    stripList l ++ ((l.dropWhile isWS).reverse.takeWhile isWS).reverse
      = l.dropWhile isWS := by
  simp only [stripList]
  have h := List.takeWhile_append_dropWhile (p := isWS)
      (l := (l.dropWhile isWS).reverse)
  have h2 := congrArg List.reverse h
  rw [List.reverse_append, List.reverse_reverse] at h2
  exact h2

theorem stripList_idem (l : List Char) : stripList (stripList l) = stripList l := by
  have hA : (l.dropWhile isWS).dropWhile isWS = l.dropWhile isWS :=
    dropWhile_dropWhile isWS l
  have h1 : (stripList l).dropWhile isWS = stripList l := by
    apply dropWhile_eq_self_append isWS (stripList l)
        ((l.dropWhile isWS).reverse.takeWhile isWS).reverse
    rw [stripList_decomp l]
    exact hA
  have h2 : (stripList l).reverse.dropWhile isWS = (stripList l).reverse := by
    have hrev : (stripList l).reverse = (l.dropWhile isWS).reverse.dropWhile isWS := by
      simp [stripList]
    rw [hrev]
    exact dropWhile_dropWhile isWS (l.dropWhile isWS).reverse
  calc stripList (stripList l)
      = (((stripList l).dropWhile isWS).reverse.dropWhile isWS).reverse := rfl
    _ = ((stripList l).reverse.dropWhile isWS).reverse := by rw [h1]
    _ = ((stripList l).reverse).reverse := by rw [h2]
    _ = stripList l := List.reverse_reverse _

theorem toList_mk (l : List Char) : (String.mk l).toList = l := rfl

theorem pyStrip_idem (s : String) : pyStrip (pyStrip s) = pyStrip s := by
  simp only [pyStrip, toList_mk, stripList_idem]

/-!
Model of `SkierAITaggingService.update_tag_enabled_status` (service.py lines
280-312).  Python dicts are modelled as association lists with distinct keys
in insertion order; assignment `m[k] = v` replaces the first binding of `k`
in place, or appends a new binding at the end (`dinsert`).  The store object
`tag_config_obj` is not part of src/: the snapshot returned by its
`get_all_tag_statuses` is a parameter `current`, and the map handed to its
`update_tag_enabled_status` is recorded in the `storeMap` field of the
outcome.
-/

/-- Python dict assignment on an association list: replace the first binding
of the key, else append a new binding at the end. -/
def dinsert : List (String × Bool) → String → Bool → List (String × Bool)
  | [], k, v => [(k, v)]
  | p :: t, k, v => if p.1 = k then (k, v) :: t else p :: dinsert t k v

/-- Model of the two `if enabled_tags: for tag in enabled_tags: ...` loops:
assign `v` to the lowercased form of every listed tag, in list order.  A
`none` or empty list leaves the map unchanged, matching Python falsiness. -/
def applyTags (m : List (String × Bool)) (tags : Option (List String)) (v : Bool) :
    List (String × Bool) :=
  match tags with
  | none => m
  | some ts => if ts.isEmpty then m else ts.foldl (fun acc t => dinsert acc (pyLower t) v) m

/-- Result of the service call: the map passed to the store, the status
string and the updated count of the returned dict. -/
structure UpdateOutcome where
  storeMap : List (String × Bool)
  status : String
  updated : Nat
  deriving DecidableEq

/-- Model of `SkierAITaggingService.update_tag_enabled_status`. -/
def update_tag_enabled_status (current : List (String × Bool))
    (tag_statuses : Option (List (String × Bool)))
    (enabled_tags disabled_tags : Option (List String)) : UpdateOutcome :=
  match tag_statuses with
  | some ts => { storeMap := ts, status := "ok", updated := ts.length }
  | none =>
    let m1 := applyTags current enabled_tags true
    let m2 := applyTags m1 disabled_tags false
    { storeMap := m2, status := "ok", updated := m2.length }

theorem lookup_dinsert (m : List (String × Bool)) (k : String) (v : Bool) (q : String) :
    (dinsert m k v).lookup q = if q = k then some v else m.lookup q := by
  induction m with
  | nil =>
    by_cases h : q = k
    · simp [dinsert, List.lookup_cons, h]
    · have hb : (q == k) = false := beq_eq_false_iff_ne.mpr h
      simp [dinsert, List.lookup_cons, hb, h]
  | cons p t ih =>
    obtain ⟨pk, pv⟩ := p
    by_cases hp : pk = k
    · subst hp
      by_cases hq : q = pk
      · simp [dinsert, List.lookup_cons, hq]
      · have hb : (q == pk) = false := beq_eq_false_iff_ne.mpr hq
        simp [dinsert, List.lookup_cons, hb, hq]
    · by_cases hq : q = pk
      · subst hq
        have hb : (q == q) = true := beq_self_eq_true q
        simp [dinsert, hp, List.lookup_cons, hb, Ne.symm hp]
      · have hb : (q == pk) = false := beq_eq_false_iff_ne.mpr hq
        simp [dinsert, hp, List.lookup_cons, hb, hq, ih]

theorem keys_dinsert (m : List (String × Bool)) (k : String) (v : Bool) (q : String) :
    q ∈ (dinsert m k v).map Prod.fst ↔ q = k ∨ q ∈ m.map Prod.fst := by
  induction m with
  | nil => simp [dinsert]
  | cons p t ih =>
    obtain ⟨pk, pv⟩ := p
    by_cases hp : pk = k
    · subst hp
      simp [dinsert]
    · simp [dinsert, hp, ih]
      tauto

theorem lookup_fold_dinsert (v : Bool) (ts : List String) :
    ∀ (m : List (String × Bool)) (q : String),
      (ts.foldl (fun acc t => dinsert acc (pyLower t) v) m).lookup q
        = if q ∈ ts.map pyLower then some v else m.lookup q := by
  induction ts with
  | nil => intro m q; simp
  | cons t rest ih =>
    intro m q
    simp only [List.foldl_cons, List.map_cons, List.mem_cons]
    rw [ih]
    by_cases hr : q ∈ rest.map pyLower
    · simp [hr]
    · by_cases ht : q = pyLower t
      · simp [hr, ht, lookup_dinsert]
      · simp [hr, ht, lookup_dinsert]

theorem keys_fold_dinsert (v : Bool) (ts : List String) :
    ∀ (m : List (String × Bool)) (q : String),
      q ∈ ((ts.foldl (fun acc t => dinsert acc (pyLower t) v) m).map Prod.fst)
        ↔ q ∈ ts.map pyLower ∨ q ∈ m.map Prod.fst := by
  induction ts with
  | nil => intro m q; simp
  | cons t rest ih =>
    intro m q
    simp only [List.foldl_cons, List.map_cons, List.mem_cons]
    rw [ih, keys_dinsert]
    tauto

theorem lookup_applyTags (m : List (String × Bool)) (tags : Option (List String))
    (v : Bool) (q : String) :
    (applyTags m tags v).lookup q
      = if q ∈ (tags.getD []).map pyLower then some v else m.lookup q := by
  cases tags with
  | none => simp [applyTags]
  | some ts =>
    cases ts with
    | nil => simp [applyTags]
    | cons t rest =>
      simp only [applyTags, List.isEmpty_cons, Bool.false_eq_true, if_false,
        Option.getD_some]
      rw [lookup_fold_dinsert]

theorem keys_applyTags (m : List (String × Bool)) (tags : Option (List String))
    (v : Bool) (q : String) :
    q ∈ (applyTags m tags v).map Prod.fst
      ↔ q ∈ (tags.getD []).map pyLower ∨ q ∈ m.map Prod.fst := by
  cases tags with
  | none => simp [applyTags]
  | some ts =>
    cases ts with
    | nil => simp [applyTags]
    | cons t rest =>
      simp only [applyTags, List.isEmpty_cons, Bool.false_eq_true, if_false,
        Option.getD_some]
      rw [keys_fold_dinsert]

/-- Claim C1: on the list-based path (`tag_statuses = None`) the single map
passed to the store is the `get_all_tag_statuses` snapshot (`current`)
overwritten first by the enable list and then by the disable list, both
lowercased: every tag in the disable list maps to false even if it is also in
the enable list, every tag only in the enable list maps to true, and any
other key keeps its snapshot status — the disable list wins because disables
are applied after enables. -/
theorem update_enabled_list_path_merge (current : List (String × Bool))
    (enabled_tags disabled_tags : Option (List String)) (q : String) :
    (q ∈ (disabled_tags.getD []).map pyLower →
      (update_tag_enabled_status current none enabled_tags disabled_tags).storeMap.lookup q
        = some false)
  ∧ (q ∉ (disabled_tags.getD []).map pyLower →
      q ∈ (enabled_tags.getD []).map pyLower →
      (update_tag_enabled_status current none enabled_tags disabled_tags).storeMap.lookup q
        = some true)
  ∧ (q ∉ (disabled_tags.getD []).map pyLower →
      q ∉ (enabled_tags.getD []).map pyLower →
      (update_tag_enabled_status current none enabled_tags disabled_tags).storeMap.lookup q
        = current.lookup q) := by
  have hs : (update_tag_enabled_status current none enabled_tags disabled_tags).storeMap
      = applyTags (applyTags current enabled_tags true) disabled_tags false := rfl
  refine ⟨?_, ?_, ?_⟩
  · intro h1
    rw [hs, lookup_applyTags]
    simp [h1]
  · intro h1 h2
    rw [hs, lookup_applyTags, lookup_applyTags]
    simp [h1, h2]
  · intro h1 h2
    rw [hs, lookup_applyTags, lookup_applyTags]
    simp [h1, h2]

/-- Witness for claim C1 at concrete inputs: a tag in both lists ends up
disabled, a tag only in the enable list ends up enabled, and an unlisted
snapshot tag keeps its status. -/
theorem update_enabled_list_path_merge_witness :
    (update_tag_enabled_status [("foo", true), ("baz", false)] none
        (some ["FOO", "Bar"]) (some ["Foo"])).storeMap.lookup "foo" = some false
  ∧ (update_tag_enabled_status [("foo", true), ("baz", false)] none
        (some ["FOO", "Bar"]) (some ["Foo"])).storeMap.lookup "bar" = some true
  ∧ (update_tag_enabled_status [("foo", true), ("baz", false)] none
        (some ["FOO", "Bar"]) (some ["Foo"])).storeMap.lookup "baz"
      = List.lookup "baz" [("foo", true), ("baz", false)] :=
  ⟨(update_enabled_list_path_merge [("foo", true), ("baz", false)]
      (some ["FOO", "Bar"]) (some ["Foo"]) "foo").1 (by decide),
   (update_enabled_list_path_merge [("foo", true), ("baz", false)]
      (some ["FOO", "Bar"]) (some ["Foo"]) "bar").2.1 (by decide) (by decide),
   (update_enabled_list_path_merge [("foo", true), ("baz", false)]
      (some ["FOO", "Bar"]) (some ["Foo"]) "baz").2.2 (by decide) (by decide)⟩

/-- Claim C9: when an explicit `tag_statuses` map is given, the enable and
disable lists have no effect and the snapshot is never consulted; the map is
forwarded to the store verbatim (keys untouched, not trimmed or lowercased)
and the returned dict is status ok with updated equal to the size of the
map. -/
theorem update_enabled_explicit_path (current current' : List (String × Bool))
    (ts : List (String × Bool))
    (enabled_tags disabled_tags enabled_tags' disabled_tags' : Option (List String)) :
    update_tag_enabled_status current (some ts) enabled_tags disabled_tags
      = { storeMap := ts, status := "ok", updated := ts.length }
  ∧ update_tag_enabled_status current (some ts) enabled_tags disabled_tags
      = update_tag_enabled_status current' (some ts) enabled_tags' disabled_tags' :=
  ⟨rfl, rfl⟩

/-- Claim C10: the updated count means different things on the two paths.
With an explicit map it is the number of entries of that map; on the list
path it is the size of the full merged map, whose key set is the snapshot
keys together with the lowercased listed tags — not the number of listed
tags. -/
theorem update_enabled_updated_count (current ts : List (String × Bool))
    (enabled_tags disabled_tags : Option (List String)) (q : String) :
    (update_tag_enabled_status current (some ts) enabled_tags disabled_tags).updated
      = ts.length
  ∧ (update_tag_enabled_status current none enabled_tags disabled_tags).updated
      = (update_tag_enabled_status current none enabled_tags disabled_tags).storeMap.length
  ∧ (q ∈ (update_tag_enabled_status current none enabled_tags disabled_tags).storeMap.map
        Prod.fst
      ↔ q ∈ current.map Prod.fst
        ∨ q ∈ ((enabled_tags.getD []) ++ (disabled_tags.getD [])).map pyLower) := by
  refine ⟨rfl, rfl, ?_⟩
  have hs : (update_tag_enabled_status current none enabled_tags disabled_tags).storeMap
      = applyTags (applyTags current enabled_tags true) disabled_tags false := rfl
  rw [hs, keys_applyTags, keys_applyTags]
  simp only [List.map_append, List.mem_append]
  tauto

/-!
Model of `_coerce_bool` (service.py lines 11-24).  Python runtime values that
can reach the coercion are modelled by `PyVal`; the numeric constructor
`pyint` stands for the `isinstance(value, (int, float))` branch, which
returns Python truthiness `bool(value)`.
-/

/-- Python value reaching `_coerce_bool`. -/
inductive PyVal where
  | pybool (b : Bool)
  | pynone
  | pyint (n : Int)
  | pystr (s : String)
  deriving DecidableEq

/-- Accepted true-ish tokens of `_coerce_bool`. -/
def trueTokens : List String := ["1", "true", "yes", "on"]

/-- Accepted false-ish tokens of `_coerce_bool`. -/
def falseTokens : List String := ["0", "false", "no", "off"]

/-- Model of `_coerce_bool(value, default)`. -/
def _coerce_bool : PyVal → Bool → Bool
  | .pybool b, _ => b
  | .pynone, d => d
  | .pyint n, _ => n != 0
  | .pystr s, d =>
    let lowered := pyLower (pyStrip s)
    if trueTokens.contains lowered then true
    else if falseTokens.contains lowered then false
    else d

/-!
Model of the CSV row loop of `SkierAITaggingService.get_available_tags_data`
(service.py lines 146-260).  A `DictReader` row is an association list from
column name to cell text; a missing column reads as `none`.  The store
`tag_config.get_tag_configuration()` is not in src/, so its `resolve` method
is an arbitrary parameter `resolve : String → EffectiveSettings`; `Duration`
magnitudes are modelled as integers, and the unit tag abbreviates the
string compared against the literal `percent` in the source.
-/

/-- One `csv.DictReader` row. -/
structure CsvRow where
  cells : List (String × String)
  deriving DecidableEq

/-- Model of `row.get(k)`: `none` when the column is missing. -/
def rowGet (r : CsvRow) (k : String) : Option String := r.cells.lookup k

/-- Model of `row.get(k, d)`. -/
def rowGetD (r : CsvRow) (k d : String) : String := (rowGet r k).getD d

/-- Model of Python `a or b or ''` over optional strings, where `None` and
the empty string are falsy. -/
def pyOrStr (a b : Option String) : String :=
  match a with
  | some s => if s = "" then (b.getD "") else s
  | none => b.getD ""

/-- The tag name of a row: `(row.get('tag_name') or row.get('tag') or '').strip()`. -/
def tagNameOfRow (r : CsvRow) : String :=
  pyStrip (pyOrStr (rowGet r "tag_name") (rowGet r "tag"))

/-- Unit of a resolved duration; the source compares the unit against the
string literal `percent`. -/
inductive DurationUnit where
  | seconds
  | percent
  deriving DecidableEq

/-- Resolved duration threshold. -/
structure Duration where
  value : Int
  unit : DurationUnit
  deriving DecidableEq

/-- Resolved settings returned by `tag_config_obj.resolve(tag_name)`. -/
structure EffectiveSettings where
  enabled : Bool
  markers_enabled : Bool
  required_scene_tag_duration : Option Duration
  min_marker_duration : Option Int
  max_gap : Option Int
  deriving DecidableEq

/-- One entry of the `tags` list built by the loop. -/
structure TagEntry where
  tag : String
  name : String
  category : String
  enabled : Bool
  markers_enabled : Bool
  required_scene_tag_duration : Option String
  min_marker_duration : Option Int
  max_gap : Option Int
  deriving DecidableEq

/-- The `defaults` dict extracted from a `__default__` row. -/
structure Defaults where
  required_scene_tag_duration : String
  min_marker_duration : String
  max_gap : String
  markers_enabled : Bool
  deriving DecidableEq

/-- Model of the `markers_enabled` extraction from the `__default__` row:
`row.get('markers_enabled', 'TRUE').strip().upper() == 'TRUE'`. -/
def defaultRowMarkersEnabled (r : CsvRow) : Bool :=
  pyUpper (pyStrip (rowGetD r "markers_enabled" "TRUE")) == "TRUE"

/-- Extraction of the `defaults` dict from a `__default__` row
(service.py lines 188-191). -/
def extractDefaults (r : CsvRow) : Defaults :=
  { required_scene_tag_duration := pyStrip (rowGetD r "RequiredSceneTagDuration" "")
    min_marker_duration := pyStrip (rowGetD r "min_marker_duration" "")
    max_gap := pyStrip (rowGetD r "max_gap" "")
    markers_enabled := defaultRowMarkersEnabled r }

/-- The placeholder token set of the skip test (service.py line 195). -/
def placeholderTokens : List String :=
  ["", "*", "default", "unused1", "unused2", "unused3", "unused4"]

/-- Model of `if not tag_name or tag_name.lower() in {...}` for an already
stripped tag name. -/
def skipRow (tagName : String) : Bool :=
  tagName == "" || placeholderTokens.contains (pyLower tagName)

/-- Textual form of a resolved duration (service.py lines 210-215). -/
def durationText (d : Duration) : String :=
  if d.unit = DurationUnit.percent then toString d.value ++ "%" else toString d.value

/-- The tags-list entry built for one surviving row (service.py lines 206-227). -/
def entryOfRow (resolve : String → EffectiveSettings) (r : CsvRow) (tagName : String) :
    TagEntry :=
  let settings := resolve tagName
  let categoryRaw := pyStrip (rowGetD r "category" "")
  { tag := tagName
    name := tagName
    category := if categoryRaw = "" then "Other" else categoryRaw
    enabled := settings.enabled
    markers_enabled := settings.markers_enabled
    required_scene_tag_duration := settings.required_scene_tag_duration.map durationText
    min_marker_duration := settings.min_marker_duration
    max_gap := settings.max_gap }

/-- The row loop of `get_available_tags_data` (service.py lines 182-227),
carrying the `defaults` accumulator. -/
def processRows (resolve : String → EffectiveSettings) (includeDisabled : Bool) :
    List CsvRow → Option Defaults → List TagEntry × Option Defaults
  | [], acc => ([], acc)
  | r :: rs, acc =>
    let tagName := tagNameOfRow r
    if pyLower tagName = "__default__" then
      processRows resolve includeDisabled rs (some (extractDefaults r))
    else if skipRow tagName then
      processRows resolve includeDisabled rs acc
    else if !includeDisabled && !(resolve tagName).enabled then
      processRows resolve includeDisabled rs acc
    else
      let rest := processRows resolve includeDisabled rs acc
      (entryOfRow resolve r tagName :: rest.1, rest.2)

/-- The backing CSV file as seen through `csv.DictReader`: `header = none`
models `reader.fieldnames is None`. -/
structure CsvFile where
  header : Option (List String)
  rows : List CsvRow
  deriving DecidableEq

/-- Result dict of `get_available_tags_data`.  `warned` records that the
structured warning was logged; `loaded_categories = none` models the key
being absent from the returned dict (as on the two degraded returns). -/
structure TagsData where
  tags : List TagEntry
  models : List String
  loaded_categories : Option (List String)
  defaults : Option Defaults
  warned : Bool
  deriving DecidableEq

/-- The empty degraded result of service.py lines 173 and 180. -/
def emptyTagsData : TagsData :=
  { tags := [], models := [], loaded_categories := none, defaults := none, warned := true }

/-- Model of `get_available_tags_data`: `file = none` models a missing CSV
file at the expected location; the model-fetch branch is out of scope and
contributes an empty model list. -/
def get_available_tags_data (resolve : String → EffectiveSettings)
    (includeDisabled : Bool) (file : Option CsvFile) : TagsData :=
  match file with
  | none => emptyTagsData
  | some f =>
    match f.header with
    | none => emptyTagsData
    | some _ =>
      let res := processRows resolve includeDisabled f.rows none
      { tags := res.1, models := [], loaded_categories := some []
        defaults := res.2, warned := false }

theorem processRows_nil (resolve : String → EffectiveSettings) (incl : Bool)
    (acc : Option Defaults) : processRows resolve incl [] acc = ([], acc) := rfl

theorem processRows_mem (resolve : String → EffectiveSettings) (incl : Bool) :
    ∀ (rows : List CsvRow) (acc : Option Defaults) (e : TagEntry),
      e ∈ (processRows resolve incl rows acc).1 →
      ∃ r ∈ rows, e = entryOfRow resolve r (tagNameOfRow r)
        ∧ pyLower (tagNameOfRow r) ≠ "__default__"
        ∧ skipRow (tagNameOfRow r) = false := by
  intro rows
  induction rows with
  | nil => intro acc e he; simp [processRows] at he
  | cons r rs ih =>
    intro acc e he
    simp only [processRows] at he
    by_cases h1 : pyLower (tagNameOfRow r) = "__default__"
    · rw [if_pos h1] at he
      obtain ⟨r', hr', hprop⟩ := ih _ e he
      exact ⟨r', List.mem_cons_of_mem _ hr', hprop⟩
    · rw [if_neg h1] at he
      by_cases h2 : skipRow (tagNameOfRow r) = true
      · rw [if_pos h2] at he
        obtain ⟨r', hr', hprop⟩ := ih _ e he
        exact ⟨r', List.mem_cons_of_mem _ hr', hprop⟩
      · rw [if_neg h2] at he
        by_cases h3 : (!incl && !(resolve (tagNameOfRow r)).enabled) = true
        · rw [if_pos h3] at he
          obtain ⟨r', hr', hprop⟩ := ih _ e he
          exact ⟨r', List.mem_cons_of_mem _ hr', hprop⟩
        · rw [if_neg h3] at he
          simp only [List.mem_cons] at he
          rcases he with h | h
          · exact ⟨r, List.mem_cons_self r rs, h, h1, by simpa using h2⟩
          · obtain ⟨r', hr', hprop⟩ := ih _ e h
            exact ⟨r', List.mem_cons_of_mem _ hr', hprop⟩

theorem processRows_tags_indep (resolve : String → EffectiveSettings) (incl : Bool) :
    ∀ (rows : List CsvRow) (acc acc' : Option Defaults),
      (processRows resolve incl rows acc).1 = (processRows resolve incl rows acc').1 := by
  intro rows
  induction rows with
  | nil => intro acc acc'; rfl
  | cons r rs ih =>
    intro acc acc'
    simp only [processRows]
    by_cases h1 : pyLower (tagNameOfRow r) = "__default__"
    · simp only [if_pos h1]
    · simp only [if_neg h1]
      by_cases h2 : skipRow (tagNameOfRow r) = true
      · simp only [if_pos h2]; exact ih _ _
      · simp only [if_neg h2]
        by_cases h3 : (!incl && !(resolve (tagNameOfRow r)).enabled) = true
        · simp only [if_pos h3]; exact ih _ _
        · simp only [if_neg h3]
          rw [ih acc acc']

/-- Claim C5: a missing CSV file or a file without a parseable header row
makes `get_available_tags_data` return the empty result (no tags, no models,
empty defaults) with the structured warning; the model is a total function,
so neither case raises. -/
theorem tags_data_degrades_on_missing_source (resolve : String → EffectiveSettings)
    (incl : Bool) (file : Option CsvFile)
    (h : file = none ∨ ∃ f, file = some f ∧ f.header = none) :
    get_available_tags_data resolve incl file = emptyTagsData := by
  rcases h with h | ⟨f, hf, hh⟩
  · subst h; rfl
  · subst hf
    simp [get_available_tags_data, hh]

/-- Witness for claim C5: the missing-file case and the headerless-file case
both give the empty warned result at concrete inputs. -/
theorem tags_data_degrades_on_missing_source_witness :
    get_available_tags_data (fun _ => ⟨true, true, none, none, none⟩) false none
      = emptyTagsData
  ∧ get_available_tags_data (fun _ => ⟨true, true, none, none, none⟩) false
      (some ⟨none, [⟨[("tag_name", "Outdoor")]⟩]⟩) = emptyTagsData :=
  ⟨tags_data_degrades_on_missing_source _ false none (Or.inl rfl),
   tags_data_degrades_on_missing_source _ false _ (Or.inr ⟨_, rfl, rfl⟩)⟩

/-- Claim C4: no entry of the tags list has a name that, trimmed and
lowercased, is the sentinel `__default__`, blank, or one of the placeholder
tokens. -/
theorem tags_never_contain_placeholder (resolve : String → EffectiveSettings)
    (incl : Bool) (rows : List CsvRow) (acc : Option Defaults) (e : TagEntry)
    (he : e ∈ (processRows resolve incl rows acc).1) :
    pyLower (pyStrip e.tag) ∉ ("__default__" :: placeholderTokens) := by
  obtain ⟨r, _, heq, hdef, hskip⟩ := processRows_mem resolve incl rows acc e he
  have htag : e.tag = tagNameOfRow r := by rw [heq]; rfl
  have hidem : pyStrip (tagNameOfRow r) = tagNameOfRow r := by
    show pyStrip (pyStrip (pyOrStr (rowGet r "tag_name") (rowGet r "tag")))
      = pyStrip (pyOrStr (rowGet r "tag_name") (rowGet r "tag"))
    exact pyStrip_idem _
  rw [htag, hidem]
  intro hmem
  rcases List.mem_cons.mp hmem with hm | hm
  · exact hdef hm
  · simp [skipRow] at hskip
    exact hskip.2 hm

/-- Witness for claim C4: the concrete entry produced from a row named
` Outdoor ` has no placeholder name. -/
theorem tags_never_contain_placeholder_witness :
    pyLower (pyStrip (TagEntry.mk "Outdoor" "Outdoor" "Other" true true none none none).tag)
      ∉ ("__default__" :: placeholderTokens) :=
  tags_never_contain_placeholder (fun _ => ⟨true, true, none, none, none⟩) true
    [⟨[("tag_name", " Outdoor ")]⟩] none
    (TagEntry.mk "Outdoor" "Outdoor" "Other" true true none none none) (by decide)

theorem processRows_false_all_enabled (resolve : String → EffectiveSettings) :
    ∀ (rows : List CsvRow) (acc : Option Defaults) (e : TagEntry),
      e ∈ (processRows resolve false rows acc).1 → e.enabled = true := by
  intro rows
  induction rows with
  | nil => intro acc e he; simp [processRows] at he
  | cons r rs ih =>
    intro acc e he
    simp only [processRows] at he
    by_cases h1 : pyLower (tagNameOfRow r) = "__default__"
    · rw [if_pos h1] at he; exact ih _ e he
    · rw [if_neg h1] at he
      by_cases h2 : skipRow (tagNameOfRow r) = true
      · rw [if_pos h2] at he; exact ih _ e he
      · rw [if_neg h2] at he
        by_cases h3 : (!false && !(resolve (tagNameOfRow r)).enabled) = true
        · rw [if_pos h3] at he; exact ih _ e he
        · rw [if_neg h3] at he
          simp only [List.mem_cons] at he
          rcases he with h | h
          · have hen : (resolve (tagNameOfRow r)).enabled = true := by
              simpa using h3
            rw [h]
            show (resolve (tagNameOfRow r)).enabled = true
            exact hen
          · exact ih _ e h

theorem processRows_true_length (resolve : String → EffectiveSettings) :
    ∀ (rows : List CsvRow) (acc : Option Defaults),
      (processRows resolve true rows acc).1.length
        = rows.countP (fun r =>
            !(pyLower (tagNameOfRow r) == "__default__") && !skipRow (tagNameOfRow r)) := by
  intro rows
  induction rows with
  | nil => intro acc; rfl
  | cons r rs ih =>
    intro acc
    simp only [processRows, List.countP_cons]
    by_cases h1 : pyLower (tagNameOfRow r) = "__default__"
    · have hp : (!(pyLower (tagNameOfRow r) == "__default__")
          && !skipRow (tagNameOfRow r)) = false := by
        simp [h1]
      rw [if_pos h1, hp]
      simpa using ih _
    · rw [if_neg h1]
      by_cases h2 : skipRow (tagNameOfRow r) = true
      · have hp : (!(pyLower (tagNameOfRow r) == "__default__")
            && !skipRow (tagNameOfRow r)) = false := by
          simp [h2]
        rw [if_pos h2, hp]
        simpa using ih _
      · have h3 : ¬((!true && !(resolve (tagNameOfRow r)).enabled) = true) := by simp
        have hskip : skipRow (tagNameOfRow r) = false := by simpa using h2
        have hp : (!(pyLower (tagNameOfRow r) == "__default__")
            && !skipRow (tagNameOfRow r)) = true := by
          simp [h1, hskip]
        rw [if_neg h2, if_neg h3, hp]
        simp only [List.length_cons, if_true]
        rw [ih acc]

/-- Claim C6: with `include_disabled = false` every emitted entry is enabled;
with `include_disabled = true` no enabled-based filtering happens — the tags
list has exactly one entry for every row that passes the name guards
(sentinel and placeholder skips), regardless of enabled status. -/
theorem include_disabled_filtering (resolve : String → EffectiveSettings)
    (rows : List CsvRow) (acc : Option Defaults) :
    (∀ e ∈ (processRows resolve false rows acc).1, e.enabled = true)
  ∧ (processRows resolve true rows acc).1.length
      = rows.countP (fun r =>
          !(pyLower (tagNameOfRow r) == "__default__") && !skipRow (tagNameOfRow r)) :=
  ⟨fun e he => processRows_false_all_enabled resolve rows acc e he,
   processRows_true_length resolve rows acc⟩

/-- Witness for claim C6: with a resolver that disables the tag `bad`, the
filtered run keeps only the enabled entry, while the unfiltered run counts
both guard-passing rows. -/
theorem include_disabled_filtering_witness :
    (TagEntry.mk "Good" "Good" "Other" true true none none none).enabled = true
  ∧ (processRows
        (fun n => if n = "Bad" then ⟨false, true, none, none, none⟩
                  else ⟨true, true, none, none, none⟩) true
        [⟨[("tag_name", "Good")]⟩, ⟨[("tag_name", "Bad")]⟩] none).1.length
      = List.countP (fun r =>
          !(pyLower (tagNameOfRow r) == "__default__") && !skipRow (tagNameOfRow r))
          [⟨[("tag_name", "Good")]⟩, ⟨[("tag_name", "Bad")]⟩] :=
  ⟨(include_disabled_filtering
      (fun n => if n = "Bad" then ⟨false, true, none, none, none⟩
                else ⟨true, true, none, none, none⟩)
      [⟨[("tag_name", "Good")]⟩, ⟨[("tag_name", "Bad")]⟩] none).1
      (TagEntry.mk "Good" "Good" "Other" true true none none none) (by decide),
   (include_disabled_filtering
      (fun n => if n = "Bad" then ⟨false, true, none, none, none⟩
                else ⟨true, true, none, none, none⟩)
      [⟨[("tag_name", "Good")]⟩, ⟨[("tag_name", "Bad")]⟩] none).2⟩

/-- Claim C7: the textual form of a resolved `required_scene_tag_duration`
emitted for any entry of the tags list is the magnitude followed by a percent
sign when the unit is percent, and the bare magnitude otherwise; an absent
duration stays absent. -/
theorem required_duration_text (resolve : String → EffectiveSettings) (incl : Bool)
    (rows : List CsvRow) (acc : Option Defaults) (e : TagEntry)
    (he : e ∈ (processRows resolve incl rows acc).1) :
    ((resolve e.tag).required_scene_tag_duration = none →
      e.required_scene_tag_duration = none)
  ∧ ∀ d, (resolve e.tag).required_scene_tag_duration = some d →
      e.required_scene_tag_duration
        = some (if d.unit = DurationUnit.percent
                then toString d.value ++ "%" else toString d.value) := by
  obtain ⟨r, _, heq, _, _⟩ := processRows_mem resolve incl rows acc e he
  have htag : e.tag = tagNameOfRow r := by rw [heq]; rfl
  have hdur : e.required_scene_tag_duration
      = ((resolve (tagNameOfRow r)).required_scene_tag_duration).map durationText := by
    rw [heq]; rfl
  constructor
  · intro hnone
    rw [htag] at hnone
    rw [hdur, hnone]
    rfl
  · intro d hsome
    rw [htag] at hsome
    rw [hdur, hsome]
    rfl

/-- Witness for claim C7: a resolver yielding a 35-percent duration produces
the text `35%` for the emitted entry. -/
theorem required_duration_text_witness :
    (TagEntry.mk "Outdoor" "Outdoor" "Other" true true (some "35%") none none
      ).required_scene_tag_duration = some "35%" :=
  ((required_duration_text
      (fun _ => ⟨true, true, some ⟨35, DurationUnit.percent⟩, none, none⟩) true
      [⟨[("tag_name", "Outdoor")]⟩] none
      (TagEntry.mk "Outdoor" "Outdoor" "Other" true true (some "35%") none none)
      (by decide)).2 ⟨35, DurationUnit.percent⟩ rfl).trans (by decide)

/-- Claim C8: every emitted entry takes its category from its own row: the
trimmed category cell when nonblank, the literal `Other` otherwise; and the
tags list never depends on the defaults accumulated from the sentinel row. -/
theorem category_from_own_row (resolve : String → EffectiveSettings) (incl : Bool)
    (rows : List CsvRow) (acc : Option Defaults) :
    (∀ e ∈ (processRows resolve incl rows acc).1, ∃ r ∈ rows,
        e.tag = tagNameOfRow r
        ∧ e.category = (if pyStrip (rowGetD r "category" "") = "" then "Other"
                        else pyStrip (rowGetD r "category" "")))
  ∧ ∀ acc', (processRows resolve incl rows acc).1
      = (processRows resolve incl rows acc').1 := by
  constructor
  · intro e he
    obtain ⟨r, hr, heq, _, _⟩ := processRows_mem resolve incl rows acc e he
    refine ⟨r, hr, ?_, ?_⟩
    · rw [heq]; rfl
    · rw [heq]; rfl
  · intro acc'
    exact processRows_tags_indep resolve incl rows acc acc'

/-- Witness for claim C8: a concrete row with category ` Scenery ` yields an
entry whose category is the trimmed cell, independent of the defaults
accumulator. -/
theorem category_from_own_row_witness :
    (∃ r ∈ [CsvRow.mk [("tag_name", "Outdoor"), ("category", " Scenery ")]],
        (TagEntry.mk "Outdoor" "Outdoor" "Scenery" true true none none none).tag
          = tagNameOfRow r
        ∧ (TagEntry.mk "Outdoor" "Outdoor" "Scenery" true true none none none).category
          = (if pyStrip (rowGetD r "category" "") = "" then "Other"
             else pyStrip (rowGetD r "category" "")))
  ∧ (processRows (fun _ => ⟨true, true, none, none, none⟩) false
        [CsvRow.mk [("tag_name", "Outdoor"), ("category", " Scenery ")]] none).1
      = (processRows (fun _ => ⟨true, true, none, none, none⟩) false
        [CsvRow.mk [("tag_name", "Outdoor"), ("category", " Scenery ")]]
        (some ⟨"", "", "", true⟩)).1 :=
  ⟨(category_from_own_row (fun _ => ⟨true, true, none, none, none⟩) false
      [CsvRow.mk [("tag_name", "Outdoor"), ("category", " Scenery ")]] none).1
      (TagEntry.mk "Outdoor" "Outdoor" "Scenery" true true none none none) (by decide),
   (category_from_own_row (fun _ => ⟨true, true, none, none, none⟩) false
      [CsvRow.mk [("tag_name", "Outdoor"), ("category", " Scenery ")]] none).2
      (some ⟨"", "", "", true⟩)⟩

/-- Counterexample for claim C3: the token `yes` is true-ish under the
`_coerce_bool` convention, yet the `markers_enabled` extraction from the
`__default__` row maps the cell `yes` to false — the two boolean coercions in
the engine do not follow one convention; moreover the numeric value 2 is not
an accepted token yet `_coerce_bool` returns true instead of the caller
default false. -/
theorem coerce_bool_convention_counterexample :
    defaultRowMarkersEnabled ⟨[("markers_enabled", "yes")]⟩ = false
  ∧ _coerce_bool (.pystr "yes") false = true
  ∧ _coerce_bool (.pyint 2) false = true := by
  refine ⟨?_, ?_, ?_⟩ <;> decide

/-- Claim C3 amended: `_coerce_bool` follows the token convention for string
values (trimmed, case-insensitive: true-ish tokens map to true, false-ish to
false, anything else to the caller default), returns booleans unchanged, the
default for None, and Python truthiness — nonzero — for numeric values; the
`markers_enabled` value extracted from the `__default__` row instead uses a
different rule: true exactly when the cell, trimmed and uppercased, equals
`TRUE`, with a missing cell defaulting to `TRUE`. -/
theorem coerce_bool_conventions (s : String) (d b : Bool) (n : Int) (r : CsvRow) :
    (trueTokens.contains (pyLower (pyStrip s)) = true →
      _coerce_bool (.pystr s) d = true)
  ∧ (falseTokens.contains (pyLower (pyStrip s)) = true →
      _coerce_bool (.pystr s) d = false)
  ∧ (trueTokens.contains (pyLower (pyStrip s)) = false →
      falseTokens.contains (pyLower (pyStrip s)) = false →
      _coerce_bool (.pystr s) d = d)
  ∧ _coerce_bool .pynone d = d
  ∧ _coerce_bool (.pybool b) d = b
  ∧ (_coerce_bool (.pyint n) d = true ↔ n ≠ 0)
  ∧ (defaultRowMarkersEnabled r = true
      ↔ pyUpper (pyStrip (rowGetD r "markers_enabled" "TRUE")) = "TRUE") := by
  refine ⟨?_, ?_, ?_, rfl, rfl, ?_, ?_⟩
  · intro h
    have hm : pyLower (pyStrip s) ∈ trueTokens := by simpa using h
    simp [_coerce_bool, hm]
  · intro h
    have hm : pyLower (pyStrip s) ∈ falseTokens := by simpa using h
    have hne : pyLower (pyStrip s) ∉ trueTokens := by
      simp only [falseTokens, List.mem_cons, List.not_mem_nil, or_false] at hm
      rcases hm with h0 | h0 | h0 | h0 <;> rw [h0] <;> decide
    simp [_coerce_bool, hne, hm]
  · intro h1 h2
    have hm1 : pyLower (pyStrip s) ∉ trueTokens := by simpa using h1
    have hm2 : pyLower (pyStrip s) ∉ falseTokens := by simpa using h2
    simp [_coerce_bool, hm1, hm2]
  · constructor
    · intro h
      simpa [_coerce_bool] using h
    · intro h
      simpa [_coerce_bool] using h
  · constructor
    · intro h
      simpa [defaultRowMarkersEnabled] using h
    · intro h
      simpa [defaultRowMarkersEnabled] using h

/-- Witness for amended claim C3 at concrete inputs: the padded token ` Yes `
coerces to true, an unrecognized string falls back to the default, and a row
without the column defaults to markers enabled. -/
theorem coerce_bool_conventions_witness :
    _coerce_bool (.pystr " Yes ") false = true
  ∧ _coerce_bool (.pystr "maybe") true = true
  ∧ defaultRowMarkersEnabled ⟨[]⟩ = true :=
  ⟨(coerce_bool_conventions " Yes " false true 0 ⟨[]⟩).1 (by decide),
   (coerce_bool_conventions "maybe" true true 0 ⟨[]⟩).2.2.1 (by decide) (by decide),
   (coerce_bool_conventions "x" false true 0 ⟨[]⟩).2.2.2.2.2.2.mpr (by decide)⟩

/-!
Model of `SkierAITaggingService.update_tag_settings` (service.py lines
314-343).  A caller field is `none` when the key is absent from the partial
record, `some none` when the key is present with value None, and
`some (some v)` when a value is given; the service builds its `settings_map`
with `settings.get(k)`, which is `Option.join` on this representation.
Numeric magnitudes are modelled as integers (they are pass-through data
here).
-/

/-- A partial per-tag record as received by the service: each field is
absent, explicitly null, or a value. -/
structure PartialSettings where
  enabled : Option (Option Bool)
  markers_enabled : Option (Option Bool)
  required_scene_tag_duration : Option (Option String)
  min_marker_duration : Option (Option Int)
  max_gap : Option (Option Int)
  deriving DecidableEq

/-- A per-tag record of the `settings_map` built by the service: every one of
the five keys is present, holding a possibly-null value. -/
structure StoreSettings where
  enabled : Option Bool
  markers_enabled : Option Bool
  required_scene_tag_duration : Option String
  min_marker_duration : Option Int
  max_gap : Option Int
  deriving DecidableEq

/-- The per-tag conversion of service.py lines 334-340: `settings.get(k)`
collapses an absent key and an explicit null to the same value. -/
def toStoreSettings (p : PartialSettings) : StoreSettings :=
  { enabled := p.enabled.join
    markers_enabled := p.markers_enabled.join
    required_scene_tag_duration := p.required_scene_tag_duration.join
    min_marker_duration := p.min_marker_duration.join
    max_gap := p.max_gap.join }

/-- Outcome of the service call: the map passed to the store and the
returned dict. -/
structure SettingsUpdateOutcome where
  settingsMap : List (String × StoreSettings)
  status : String
  updated : Nat
  deriving DecidableEq

/-- Model of `SkierAITaggingService.update_tag_settings`. -/
def update_tag_settings (tag_settings : List (String × PartialSettings)) :
    SettingsUpdateOutcome :=
  { settingsMap := tag_settings.map (fun p => (p.1, toStoreSettings p.2))
    status := "ok"
    updated := tag_settings.length }

/-- One logical row of the backing table held by the store. -/
structure TagRow where
  tag_name : String
  category : Option String
  enabled : Option Bool
  markers_enabled : Option Bool
  required_scene_tag_duration : Option String
  min_marker_duration : Option Int
  max_gap : Option Int
  deriving DecidableEq

/-- Overwriting the five settable fields of a row with the values of a
`settings_map` record; all five keys are present in that record, so each
field is set to the given possibly-null value, clearing it on null.  Other
columns (here `category`) are untouched. -/
def applyFields (r : TagRow) (s : StoreSettings) : TagRow :=
  { r with
    enabled := s.enabled
    markers_enabled := s.markers_enabled
    required_scene_tag_duration := s.required_scene_tag_duration
    min_marker_duration := s.min_marker_duration
    max_gap := s.max_gap }

/-- The minimal row created for a tag that had no row. -/
def newRow (name : String) (s : StoreSettings) : TagRow :=
  { tag_name := name
    category := none
    enabled := s.enabled
    markers_enabled := s.markers_enabled
    required_scene_tag_duration := s.required_scene_tag_duration
    min_marker_duration := s.min_marker_duration
    max_gap := s.max_gap }

/-- Modelled from the spec: the missing store method
`tag_config.update_tag_settings` applied to one entry of the map — locate or
create the row of that name and overwrite the fields explicitly present in
the record, where a null value clears the field (spec section 4.5). -/
def storeApplyOne : List TagRow → String → StoreSettings → List TagRow
  | [], name, s => [newRow name s]
  | r :: t, name, s =>
    if r.tag_name = name then applyFields r s :: t else r :: storeApplyOne t name s

/-- Modelled from the spec: the missing store method
`tag_config.update_tag_settings` over the whole map, entry by entry. -/
def store_update_tag_settings (table : List TagRow)
    (m : List (String × StoreSettings)) : List TagRow :=
  m.foldl (fun t p => storeApplyOne t p.1 p.2) table

/-- The full write path: service conversion followed by the spec-modelled
store update. -/
def update_tag_settings_pipeline (table : List TagRow)
    (tag_settings : List (String × PartialSettings)) : List TagRow :=
  store_update_tag_settings table (update_tag_settings tag_settings).settingsMap

/-- Lookup of a row by tag name. -/
def findRow (table : List TagRow) (k : String) : Option TagRow :=
  table.find? (fun r => r.tag_name == k)

theorem findRow_storeApplyOne_ne (t : List TagRow) (name : String) (s : StoreSettings)
    (k : String) (h : k ≠ name) :
    findRow (storeApplyOne t name s) k = findRow t k := by
  induction t with
  | nil =>
    have : (newRow name s).tag_name = name := rfl
    simp [storeApplyOne, findRow, List.find?, this, beq_eq_false_iff_ne.mpr h.symm]
  | cons r t ih =>
    by_cases hr : r.tag_name = name
    · have hk : (r.tag_name == k) = false := by
        rw [hr]; exact beq_eq_false_iff_ne.mpr (fun hh => h hh.symm)
      have hk2 : ((applyFields r s).tag_name == k) = false := by
        show (r.tag_name == k) = false
        exact hk
      have hnk : (name == k) = false := beq_eq_false_iff_ne.mpr (Ne.symm h)
      simp [storeApplyOne, hr, findRow, List.find?_cons, hk, hk2, hnk]
    · by_cases hq : r.tag_name = k
      · simp [storeApplyOne, hr, findRow, List.find?_cons, hq, h]
      · have hk : (r.tag_name == k) = false := beq_eq_false_iff_ne.mpr hq
        simpa [storeApplyOne, hr, findRow, List.find?_cons, hk] using ih

theorem findRow_storeApplyOne_eq (t : List TagRow) (name : String) (s : StoreSettings) :
    findRow (storeApplyOne t name s) name
      = some (match findRow t name with
              | some r => applyFields r s
              | none => newRow name s) := by
  induction t with
  | nil =>
    have : (newRow name s).tag_name = name := rfl
    simp [storeApplyOne, findRow, List.find?, this]
  | cons r t ih =>
    by_cases hr : r.tag_name = name
    · have hk : ((applyFields r s).tag_name == name) = true := by
        show (r.tag_name == name) = true
        exact beq_iff_eq.mpr hr
      simp [storeApplyOne, hr, findRow, List.find?_cons, hk, beq_iff_eq]
    · have hk : (r.tag_name == name) = false := beq_eq_false_iff_ne.mpr hr
      simpa [storeApplyOne, hr, findRow, List.find?_cons, hk] using ih

theorem findRow_store_update_ne (m : List (String × StoreSettings)) :
    ∀ (t : List TagRow) (k : String), k ∉ m.map Prod.fst →
      findRow (store_update_tag_settings t m) k = findRow t k := by
  induction m with
  | nil => intro t k _; rfl
  | cons e m ih =>
    intro t k h
    simp only [List.map_cons, List.mem_cons] at h
    push_neg at h
    obtain ⟨h1, h2⟩ := h
    show findRow (store_update_tag_settings (storeApplyOne t e.1 e.2) m) k = findRow t k
    rw [ih _ k h2, findRow_storeApplyOne_ne _ _ _ _ h1]

theorem findRow_store_update_mem (m : List (String × StoreSettings)) :
    ∀ (t : List TagRow) (k : String) (s : StoreSettings),
      (m.map Prod.fst).Nodup → (k, s) ∈ m →
      findRow (store_update_tag_settings t m) k
        = some (match findRow t k with
                | some r => applyFields r s
                | none => newRow k s) := by
  induction m with
  | nil => intro t k s _ hmem; simp at hmem
  | cons e m ih =>
    obtain ⟨e1, e2⟩ := e
    intro t k s hnd hmem
    simp only [List.map_cons, List.nodup_cons] at hnd
    obtain ⟨hni, hnd2⟩ := hnd
    rcases List.mem_cons.mp hmem with he | hm
    · obtain ⟨hk, hs⟩ := Prod.mk.injEq _ _ _ _ ▸ he
      subst hk
      subst hs
      show findRow (store_update_tag_settings (storeApplyOne t k s) m) k = _
      rw [findRow_store_update_ne m _ k hni, findRow_storeApplyOne_eq]
    · have hk : k ∈ m.map Prod.fst := List.mem_map.mpr ⟨(k, s), hm, rfl⟩
      have hne : k ≠ e1 := fun hh => hni (hh ▸ hk)
      show findRow (store_update_tag_settings (storeApplyOne t e1 e2) m) k = _
      rw [ih _ k s hnd2 hm, findRow_storeApplyOne_ne _ _ _ _ hne]

/-- The table row used by the claim C2 counterexample: tag `foo` with every
settable field populated. -/
def c2row : TagRow :=
  { tag_name := "foo", category := some "Cat", enabled := some true
    markers_enabled := some true, required_scene_tag_duration := some "15"
    min_marker_duration := some 5, max_gap := some 2 }

/-- A partial record setting only `enabled`; the other fields are absent. -/
def c2partialAbsent : PartialSettings :=
  { enabled := some (some false), markers_enabled := none
    required_scene_tag_duration := none, min_marker_duration := none
    max_gap := none }

/-- The same partial record except `min_marker_duration` is explicitly
null. -/
def c2partialNull : PartialSettings :=
  { enabled := some (some false), markers_enabled := none
    required_scene_tag_duration := none, min_marker_duration := some none
    max_gap := none }

/-- Counterexample for claim C2: a partial record that never mentions
`min_marker_duration` clears that field anyway (it was 5, it becomes null),
and its effect is identical to the record that sets the field explicitly to
null — the service collapses the two cases with `settings.get`, so a field
not mentioned does not change nothing and the two cases are not distinct. -/
theorem update_tag_settings_counterexample :
    update_tag_settings_pipeline [c2row] [("foo", c2partialAbsent)]
      = update_tag_settings_pipeline [c2row] [("foo", c2partialNull)]
  ∧ (update_tag_settings_pipeline [c2row] [("foo", c2partialAbsent)]).map
      (fun r => r.min_marker_duration) = [none]
  ∧ c2row.min_marker_duration = some 5 := by
  refine ⟨?_, ?_, ?_⟩ <;> decide

/-- Claim C2 amended: for every tag named in the map, all five settable
fields of its row are overwritten with the partial record's value-or-null
(an absent field behaves exactly like an explicit null and clears the field;
a missing row is created), while rows whose names are not in the map are
untouched; the returned updated count is the number of entries of the map. -/
theorem update_tag_settings_overwrites_all_fields (table : List TagRow)
    (ts : List (String × PartialSettings)) (k : String) (p : PartialSettings)
    (hnd : (ts.map Prod.fst).Nodup) (hmem : (k, p) ∈ ts) :
    (findRow (update_tag_settings_pipeline table ts) k
      = some (match findRow table k with
              | some r => applyFields r (toStoreSettings p)
              | none => newRow k (toStoreSettings p)))
  ∧ (∀ q, q ∉ ts.map Prod.fst →
      findRow (update_tag_settings_pipeline table ts) q = findRow table q)
  ∧ toStoreSettings { p with enabled := none }
      = toStoreSettings { p with enabled := some none }
  ∧ toStoreSettings { p with markers_enabled := none }
      = toStoreSettings { p with markers_enabled := some none }
  ∧ toStoreSettings { p with required_scene_tag_duration := none }
      = toStoreSettings { p with required_scene_tag_duration := some none }
  ∧ toStoreSettings { p with min_marker_duration := none }
      = toStoreSettings { p with min_marker_duration := some none }
  ∧ toStoreSettings { p with max_gap := none }
      = toStoreSettings { p with max_gap := some none }
  ∧ (update_tag_settings ts).updated = ts.length := by
  have hkeys : ((update_tag_settings ts).settingsMap.map Prod.fst) = ts.map Prod.fst := by
    simp [update_tag_settings]
  refine ⟨?_, ?_, rfl, rfl, rfl, rfl, rfl, rfl⟩
  · have hmem2 : (k, toStoreSettings p) ∈ (update_tag_settings ts).settingsMap :=
      List.mem_map.mpr ⟨(k, p), hmem, rfl⟩
    exact findRow_store_update_mem _ table k (toStoreSettings p)
      (by rw [hkeys]; exact hnd) hmem2
  · intro q hq
    exact findRow_store_update_ne _ table q (by rw [hkeys]; exact hq)

/-- Witness for amended claim C2 at concrete inputs: updating tag `foo`
overwrites all five fields of its row, leaves the row `bar` untouched, and
reports one updated entry. -/
theorem update_tag_settings_overwrites_all_fields_witness :
    findRow (update_tag_settings_pipeline
        [c2row, { c2row with tag_name := "bar" }] [("foo", c2partialAbsent)]) "foo"
      = some (applyFields c2row (toStoreSettings c2partialAbsent))
  ∧ findRow (update_tag_settings_pipeline
        [c2row, { c2row with tag_name := "bar" }] [("foo", c2partialAbsent)]) "bar"
      = findRow [c2row, { c2row with tag_name := "bar" }] "bar"
  ∧ (update_tag_settings [("foo", c2partialAbsent)]).updated = 1 := by
  have h := update_tag_settings_overwrites_all_fields
    [c2row, { c2row with tag_name := "bar" }] [("foo", c2partialAbsent)]
    "foo" c2partialAbsent (by decide) (by decide)
  refine ⟨?_, ?_, ?_⟩
  · have h1 := h.1
    rw [show findRow [c2row, { c2row with tag_name := "bar" }] "foo" = some c2row
      from by decide] at h1
    exact h1
  · exact h.2.1 "bar" (by decide)
  · exact h.2.2.2.2.2.2.2
